import Mathlib

/-!
Verification of the vectorflow job/batch queueing engine and worker loop.

The development shallowly embeds the code of src/worker/worker.py
(`process_batch`, `embed_openai_batch`, `chunk_data`,
`write_embeddings_to_vector_db`, `create_source_chunk_dict`,
`write_embeddings_to_pinecone`, `update_job_status`) together with the
status-aggregation state machine of the API pipeline.  External
collaborators (the OpenAI embedding endpoint, the Pinecone vector store,
the HTTP transport used for status reports) are modelled as oracles
supplied through an environment record; the worker functions are embedded
as trace-producing functions so that the order and number of provider
calls, sleeps, vector-store upserts and status reports can be reasoned
about.  Exceptions are modelled with `Except`.
-/

/-- Modelled from the spec: the module src/api/job_status.py is not part of
the given sources; section 3 of the spec fixes the JobStatus enum as
NOT_STARTED, IN_PROGRESS, PARTIALLY_COMPLETE, COMPLETED, FAILED. -/
inductive JobStatus
  | NOT_STARTED
  | IN_PROGRESS
  | PARTIALLY_COMPLETE
  | COMPLETED
  | FAILED
deriving DecidableEq

/-- Modelled from the spec: the module src/api/batch_status.py is not part
of the given sources; section 3 of the spec fixes the BatchStatus enum as
NOT_STARTED, IN_PROGRESS, COMPLETED, FAILED.  In particular the enum has
no member named Failed, so the attribute accesses BatchStatus.Failed in
worker.py lines 45 and 50 raise AttributeError when evaluated. -/
inductive BatchStatus
  | NOT_STARTED
  | IN_PROGRESS
  | COMPLETED
  | FAILED
deriving DecidableEq

/-- Modelled from the spec: the Job record of section 3 — webhook_url,
total_batches (immutable after creation), the two monotone counters and
the job status. -/
structure Job where
  webhook_url : String
  total_batches : Nat
  batches_processed : Nat
  batches_succeeded : Nat
  job_status : JobStatus
deriving DecidableEq

/-- Modelled from the spec: outcome codes of the status-update operation
(section 4.3 and section 6): job failed, accepted with more work
remaining, fully complete, partly complete, plus the staleness
rejection and the not-found signal for an unknown batch. -/
inductive UpdateOutcome
  | jobFailed
  | inProgress
  | fullyComplete
  | partlyComplete
  | stale
  | notFound
deriving DecidableEq

/-- Modelled from the spec: the pipeline state owned by the Queue Store —
one job record together with the statuses of the batches belonging to it,
keyed by batch id. -/
structure PipelineState where
  job : Job
  batches : List (String × BatchStatus)
deriving DecidableEq

def getBatchStatus : List (String × BatchStatus) → String → Option BatchStatus
  | [], _ => none
  | (k, v) :: rest, id => if k = id then some v else getBatchStatus rest id

def setBatchStatus : List (String × BatchStatus) → String → BatchStatus → List (String × BatchStatus)
  | [], _, _ => []
  | (k, v) :: rest, id, s =>
    if k = id then (k, s) :: rest else (k, v) :: setBatchStatus rest id s

/-- A batch status is terminal when it is COMPLETED or FAILED. -/
def terminalBatch : BatchStatus → Bool
  | BatchStatus.COMPLETED => true
  | BatchStatus.FAILED => true
  | _ => false

/-- Modelled from the spec: the Status Aggregator transition of section
4.3 — reject an update for an already terminal batch as stale, otherwise
record the new batch status, bump batches_processed, bump
batches_succeeded on COMPLETED, set the job status to FAILED on a FAILED
report, and otherwise derive IN_PROGRESS, COMPLETED or
PARTIALLY_COMPLETE from the counters.  Per sections 3 and 7 a FAILED job
status is terminal and must never be overwritten by a later update, so
the derived status is applied only when the job is not already FAILED.
The aggregator code itself (src/api) is not among the given sources. -/
def update_status (st : PipelineState) (batch_id : String) (new_status : BatchStatus) :
    PipelineState × UpdateOutcome :=
  match getBatchStatus st.batches batch_id with
  | none => (st, UpdateOutcome.notFound)
  | some cur =>
    if terminalBatch cur then (st, UpdateOutcome.stale)
    else
      let batches2 := setBatchStatus st.batches batch_id new_status
      let processed := st.job.batches_processed + 1
      let succeeded :=
        st.job.batches_succeeded + (if new_status = BatchStatus.COMPLETED then 1 else 0)
      let keep : JobStatus → JobStatus := fun s =>
        if st.job.job_status = JobStatus.FAILED then JobStatus.FAILED else s
      if new_status = BatchStatus.FAILED then
        (⟨⟨st.job.webhook_url, st.job.total_batches, processed, succeeded, JobStatus.FAILED⟩,
          batches2⟩, UpdateOutcome.jobFailed)
      else if processed < st.job.total_batches then
        (⟨⟨st.job.webhook_url, st.job.total_batches, processed, succeeded,
           keep JobStatus.IN_PROGRESS⟩, batches2⟩, UpdateOutcome.inProgress)
      else if succeeded = st.job.total_batches then
        (⟨⟨st.job.webhook_url, st.job.total_batches, processed, succeeded,
           keep JobStatus.COMPLETED⟩, batches2⟩, UpdateOutcome.fullyComplete)
      else
        (⟨⟨st.job.webhook_url, st.job.total_batches, processed, succeeded,
           keep JobStatus.PARTIALLY_COMPLETE⟩, batches2⟩, UpdateOutcome.partlyComplete)

/-- Apply a sequence of status updates (batch id, reported status) to the
pipeline state, in order. -/
def applyUpdates (st : PipelineState) : List (String × BatchStatus) → PipelineState
  | [] => st
  | (id, s) :: rest => applyUpdates (update_status st id s).1 rest

theorem update_status_keeps_failed (st : PipelineState) (id : String) (s : BatchStatus)
    (h : st.job.job_status = JobStatus.FAILED) :
    (update_status st id s).1.job.job_status = JobStatus.FAILED := by
  unfold update_status
  cases getBatchStatus st.batches id with
  | none => simpa using h
  | some cur =>
    by_cases hterm : terminalBatch cur = true
    · simp [hterm, h]
    · by_cases hf : s = BatchStatus.FAILED
      · simp [hterm, hf]
      · simp only [hterm, hf, h, if_true, if_false, Bool.false_eq_true, ite_false]
        repeat first | rfl | split

theorem applyUpdates_keeps_failed (ups : List (String × BatchStatus)) :
    ∀ st : PipelineState, st.job.job_status = JobStatus.FAILED →
      (applyUpdates st ups).job.job_status = JobStatus.FAILED := by
  induction ups with
  | nil => intro st h; simpa [applyUpdates] using h
  | cons p rest ih =>
    intro st h
    simp only [applyUpdates]
    exact ih _ (update_status_keeps_failed st p.1 p.2 h)

/-- C1: once a status update sets the job status to FAILED, the job stays
FAILED under every subsequent sequence of status updates; in particular a
later COMPLETED report for a different batch of the same job leaves the
job status equal to FAILED. -/
theorem job_failed_sticky (st : PipelineState) (batch_id : String) (s : BatchStatus)
    (ups : List (String × BatchStatus))
    (h : (update_status st batch_id s).1.job.job_status = JobStatus.FAILED) :
    (applyUpdates (update_status st batch_id s).1 ups).job.job_status = JobStatus.FAILED :=
  applyUpdates_keeps_failed ups _ h

/-- A concrete two-batch job: batch b1 reports FAILED, then batch b2
reports COMPLETED; the job status is still FAILED afterwards. -/
def c1State : PipelineState :=
  ⟨⟨"wh", 2, 0, 0, JobStatus.NOT_STARTED⟩,
   [("b1", BatchStatus.NOT_STARTED), ("b2", BatchStatus.NOT_STARTED)]⟩

theorem job_failed_sticky_witness :
    (applyUpdates (update_status c1State ("b1") BatchStatus.FAILED).1
       [("b2", BatchStatus.COMPLETED)]).job.job_status = JobStatus.FAILED :=
  job_failed_sticky c1State ("b1") BatchStatus.FAILED [("b2", BatchStatus.COMPLETED)] (by decide)

/-- Python slice data[i:j] with the default step, for a list of
characters: a negative bound counts from the end, bounds are clamped to
the length, and the result is the elements with index in [start, stop). -/
def pySlice (data : List Char) (i j : Int) : List Char :=
  (data.take
      (if j < 0 then max ((data.length : Int) + j) 0 else min j (data.length : Int)).toNat).drop
    (if i < 0 then max ((data.length : Int) + i) 0 else min i (data.length : Int)).toNat

/-- Embedding of chunk_data (worker.py lines 56-60).  The Python loop
iterates i over range(0, len(data), chunk_size - chunk_overlap) and
appends data[i : i + chunk_size].  A zero range step raises ValueError;
a negative step makes range(0, len(data), step) empty, so the function
returns an empty list without any error. -/
def chunk_data (data : List Char) (chunk_size chunk_overlap : Int) :
    Except String (List (List Char)) :=
  let step : Int := chunk_size - chunk_overlap
  if step = 0 then Except.error ("ValueError: range() arg 3 must not be zero")
  else if step < 0 then Except.ok []
  else
    Except.ok ((List.range ((data.length + step.toNat - 1) / step.toNat)).map
      (fun (k : Nat) => pySlice data ((k : Int) * step) ((k : Int) * step + chunk_size)))

/-- C5 (code evaluated at the failing input): with chunk_size 1 and
chunk_overlap 2 the range step is negative, so chunk_data returns the
empty list normally instead of failing with a configuration error. -/
theorem chunk_data_negative_step_ok :
    chunk_data ['a', 'b'] 1 2 = Except.ok [] := by rfl

theorem pySlice_drop_take (data : List Char) (a b : Nat) :
    pySlice data (a : Int) ((a : Int) + (b : Int)) = (data.drop a).take b := by
  unfold pySlice
  rw [if_neg (by omega), if_neg (by omega)]
  have e1 : (min ((a : Int) + (b : Int)) ((data.length : Nat) : Int)).toNat
      = min (a + b) data.length := by omega
  have e2 : (min ((a : Int)) ((data.length : Nat) : Int)).toNat = min a data.length := by
    omega
  rw [e1, e2]
  rcases Nat.le_total a data.length with h | h
  · rw [Nat.min_eq_left h, List.drop_take]
    refine List.take_eq_take.mpr ?_
    rw [List.length_drop]
    omega
  · rw [Nat.min_eq_right h]
    have e3 : min (a + b) data.length = data.length := by omega
    rw [e3, List.take_length, List.drop_length, List.drop_eq_nil_of_le h]
    simp

/-- The list of windows produced by chunk_data when the advance step is
positive: offsets 0, step, 2 step, … below the input length, each sliced
to chunk_size characters. -/
def chunkWindows (data : List Char) (chunk_size chunk_overlap : Int) : List (List Char) :=
  (List.range
      ((data.length + (chunk_size - chunk_overlap).toNat - 1) / (chunk_size - chunk_overlap).toNat)).map
    (fun (k : Nat) => pySlice data ((k : Int) * (chunk_size - chunk_overlap))
      ((k : Int) * (chunk_size - chunk_overlap) + chunk_size))

theorem chunk_data_eq_windows (data : List Char) (size overlap : Int) (h1 : overlap < size) :
    chunk_data data size overlap = Except.ok (chunkWindows data size overlap) := by
  simp only [chunk_data, chunkWindows]
  rw [if_neg (by omega), if_neg (by omega)]

theorem chunkWindows_length (data : List Char) (size overlap : Int) :
    (chunkWindows data size overlap).length
      = (data.length + (size - overlap).toNat - 1) / (size - overlap).toNat := by
  rw [chunkWindows, List.length_map, List.length_range]

theorem chunkWindows_get (data : List Char) (size overlap : Int) (h0 : 0 ≤ overlap)
    (h1 : overlap < size) (k : Nat) (h : k < (chunkWindows data size overlap).length) :
    (chunkWindows data size overlap).get ⟨k, h⟩
      = (data.drop (k * (size - overlap).toNat)).take size.toNat := by
  unfold chunkWindows at h ⊢
  simp only [List.get_eq_getElem, List.getElem_map, List.getElem_range]
  have e1 : (k : Int) * (size - overlap) = ((k * (size - overlap).toNat : Nat) : Int) := by
    push_cast
    rw [Int.toNat_of_nonneg (by omega)]
  have e2 : (k : Int) * (size - overlap) + size
      = ((k * (size - overlap).toNat : Nat) : Int) + ((size.toNat : Nat) : Int) := by
    push_cast
    rw [Int.toNat_of_nonneg (by omega), Int.toNat_of_nonneg (by omega)]
  rw [e2, e1]
  exact pySlice_drop_take data _ _

theorem chunk_index_iff (L s k : Nat) (hs : 0 < s) :
    k < (L + s - 1) / s ↔ k * s < L := by
  constructor
  · intro hk
    have h3 : (k + 1) * s ≤ L + s - 1 := (Nat.le_div_iff_mul_le hs).mp hk
    rw [Nat.succ_mul] at h3
    omega
  · intro hk
    have h3 : (k + 1) * s ≤ L + s - 1 := by rw [Nat.succ_mul]; omega
    exact (Nat.le_div_iff_mul_le hs).mpr h3

/-- A ten-character input on which size 5 and overlap 3 clip two windows,
not just the final one. -/
def c4Data : List Char := ['a', 'b', 'c', 'd', 'e', 'f', 'g', 'h', 'i', 'j']

/-- The content of claim C4 at one input: chunk_data succeeds and returns,
in order, the windows data[k*(size-overlap) : k*(size-overlap)+size] for
k while k*(size-overlap) < len(data); every window except possibly the
last has length size; consecutive windows share exactly overlap
characters (the final overlap characters of window k are the first
overlap characters of window k+1); the windows cover the entire input;
empty input yields an empty sequence. -/
def chunkClaimC4 (data : List Char) (size overlap : Int) : Prop :=
  ∃ ws, chunk_data data size overlap = Except.ok ws ∧
    (∀ k : Nat, k < ws.length ↔ k * (size - overlap).toNat < data.length) ∧
    (∀ k (h : k < ws.length),
      ws.get ⟨k, h⟩ = (data.drop (k * (size - overlap).toNat)).take size.toNat) ∧
    (∀ k (h : k + 1 < ws.length),
      (ws.get ⟨k, Nat.lt_of_succ_lt h⟩).length = size.toNat) ∧
    (∀ k (h : k + 1 < ws.length),
      (ws.get ⟨k, Nat.lt_of_succ_lt h⟩).drop
          ((ws.get ⟨k, Nat.lt_of_succ_lt h⟩).length - overlap.toNat)
        = (ws.get ⟨k + 1, h⟩).take overlap.toNat) ∧
    (∀ j, j < data.length → ∃ k, k < ws.length ∧
      k * (size - overlap).toNat ≤ j ∧ j < k * (size - overlap).toNat + size.toNat) ∧
    (data = [] → ws = [])

/-- C4 counterexample: on a ten-character input with size 5 and overlap 3
the produced windows are abcde, cdefg, efghi, ghij, ij — window 3 has
length 4 although it is not the last window, so the claim as stated
(every window except possibly the last has length size, consecutive
windows share exactly overlap characters) is false. -/
theorem chunkClaimC4_refuted : chunkClaimC4 c4Data 5 3 = False := by
  apply eq_false
  intro hcl
  obtain ⟨ws, hok, hiff, hget, hlen, hshare, hcov, hemp⟩ := hcl
  have hval : chunk_data c4Data 5 3 = Except.ok
      [['a', 'b', 'c', 'd', 'e'], ['c', 'd', 'e', 'f', 'g'], ['e', 'f', 'g', 'h', 'i'],
       ['g', 'h', 'i', 'j'], ['i', 'j']] := by rfl
  rw [hval] at hok
  injection hok with hws
  subst hws
  exact absurd (hlen 3 (by decide)) (by decide)

/-- C4 as amended: for size > overlap >= 0, chunk_data succeeds and
returns, in order, the windows data[k*(size-overlap) : k*(size-overlap)+size]
for k while k*(size-overlap) < len(data); window k has length
min(size, len(data) - k*(size-overlap)), so more than one window near the
end of the input may be shorter than size; consecutive windows k and k+1
share exactly min(overlap, len(data) - (k+1)*(size-overlap)) characters;
the windows cover the entire input; empty input yields an empty
sequence. -/
def chunkSpecAmended (data : List Char) (size overlap : Int) : Prop :=
  ∃ ws, chunk_data data size overlap = Except.ok ws ∧
    (∀ k : Nat, k < ws.length ↔ k * (size - overlap).toNat < data.length) ∧
    (∀ k (h : k < ws.length),
      ws.get ⟨k, h⟩ = (data.drop (k * (size - overlap).toNat)).take size.toNat) ∧
    (∀ k (h : k < ws.length),
      (ws.get ⟨k, h⟩).length
        = min size.toNat (data.length - k * (size - overlap).toNat)) ∧
    (∀ k (h : k + 1 < ws.length),
      (ws.get ⟨k, Nat.lt_of_succ_lt h⟩).drop
          ((ws.get ⟨k, Nat.lt_of_succ_lt h⟩).length
            - min overlap.toNat (data.length - (k + 1) * (size - overlap).toNat))
        = (ws.get ⟨k + 1, h⟩).take
            (min overlap.toNat (data.length - (k + 1) * (size - overlap).toNat))) ∧
    (∀ j, j < data.length → ∃ k, k < ws.length ∧
      k * (size - overlap).toNat ≤ j ∧ j < k * (size - overlap).toNat + size.toNat) ∧
    (data = [] → ws = [])

/-- C4 (amended): the windows returned by chunk_data for a valid
configuration, their clipped lengths, their exact pairwise sharing, and
full coverage of the input. -/
theorem chunk_data_amended (data : List Char) (size overlap : Int)
    (h0 : 0 ≤ overlap) (h1 : overlap < size) :
    chunkSpecAmended data size overlap := by
  have hiffm : ∀ k : Nat, k < (chunkWindows data size overlap).length ↔
      k * (size - overlap).toNat < data.length := by
    intro k
    rw [chunkWindows_length]
    exact chunk_index_iff data.length ((size - overlap).toNat) k (by omega)
  refine ⟨chunkWindows data size overlap, chunk_data_eq_windows data size overlap h1,
    hiffm, ?_, ?_, ?_, ?_, ?_⟩
  · intro k h
    exact chunkWindows_get data size overlap h0 h1 k h
  · intro k h
    rw [chunkWindows_get data size overlap h0 h1 k h, List.length_take, List.length_drop]
  · intro k hk
    have hBlt : (k + 1) * (size - overlap).toNat < data.length := (hiffm (k + 1)).mp hk
    rw [chunkWindows_get data size overlap h0 h1 k (Nat.lt_of_succ_lt hk),
        chunkWindows_get data size overlap h0 h1 (k + 1) hk]
    set s : Nat := (size - overlap).toNat with hs
    set sz : Nat := size.toNat with hsz
    set ov : Nat := overlap.toNat with hov
    set L : Nat := data.length with hL
    set A : Nat := k * s with hA
    have hB : (k + 1) * s = A + s := by rw [Nat.succ_mul]
    rw [hB] at hBlt ⊢
    set m : Nat := min ov (L - (A + s)) with hm
    rw [List.length_take, List.length_drop]
    rw [List.drop_take, List.drop_drop]
    have hd : min sz (L - A) - m = s := by omega
    rw [hd]
    have he : sz - s = ov := by omega
    rw [he]
    rw [List.take_take]
    have hmin : min m sz = m := by omega
    rw [hmin]
    refine List.take_eq_take.mpr ?_
    rw [List.length_drop]
    omega
  · intro j hj
    refine ⟨j / (size - overlap).toNat, ?_, Nat.div_mul_le_self j _, ?_⟩
    · exact (hiffm _).mpr (lt_of_le_of_lt (Nat.div_mul_le_self j _) hj)
    · have h2 := Nat.div_add_mod j ((size - overlap).toNat)
      have h3 : j % (size - overlap).toNat < (size - overlap).toNat :=
        Nat.mod_lt j (by omega)
      rw [Nat.mul_comm]
      generalize hg : (size - overlap).toNat * (j / (size - overlap).toNat) = Y at h2 ⊢
      omega
  · intro hdat
    subst hdat
    unfold chunkWindows
    simp only [List.length_nil]
    have h5 : ((0 : Nat) + (size - overlap).toNat - 1) / (size - overlap).toNat = 0 :=
      Nat.div_eq_of_lt (by omega)
    rw [h5]
    rfl

theorem chunk_data_amended_witness : chunkSpecAmended c4Data 5 3 :=
  chunk_data_amended c4Data 5 3 (by decide) (by decide)

/-- Result of one call to the OpenAI embedding endpoint, an external
collaborator: either the call raises, or it returns a response whose
data field is a list of items, each carrying an embedding vector
(vector components are opaque scalars, modelled as integers). -/
inductive AttemptResult
  | raise
  | ok (data : List (List Int))
deriving DecidableEq

/-- Behavior of the Pinecone upsert call, an external collaborator:
either it raises, or it returns an acknowledgement whose truthiness is
the given boolean. -/
inductive UpsertBehavior
  | raise
  | ack (truthy : Bool)
deriving DecidableEq

/-- Oracle environment for one worker run: the outcome of the i-th
embedding attempt, the truthiness of the pinecone Index object per index
name (worker.py line 82 guards the write with: if not index), and the
upsert behavior. -/
structure WorkerEnv where
  attempts : Nat → AttemptResult
  indexTruthy : String → Bool
  upsert : UpsertBehavior

/-- An upsert record as built by create_source_chunk_dict.  The code
zips the components of a single embedding vector with the chunks, so the
values field holds one scalar, not a vector. -/
structure UpsertRecord where
  id : String
  values : Int
  source_text : List Char
deriving DecidableEq

/-- Observable events of one process_batch run: an embedding-provider
call with its input, a backoff sleep with its duration, a vector-store
upsert with its records, and a status report to the API. -/
inductive Event
  | embedCall (input : List (List Char))
  | sleep (seconds : Nat)
  | upsertCall (records : List UpsertRecord)
  | report (job_id : String) (batch_id : String) (status : BatchStatus)
deriving DecidableEq

structure EmbeddingsMetadata where
  embeddings_type : String
  api_key : String
  chunk_size : Int
  chunk_overlap : Int
deriving DecidableEq

structure VectorDBMetadata where
  vector_db_type : String
  index_name : String
  environment : String
  api_key : String
deriving DecidableEq

/-- The batch dictionary consumed by the worker (as produced by the
dequeue endpoint). -/
structure WorkerBatch where
  job_id : String
  batch_id : String
  source_data : List Char
  embeddings_metadata : EmbeddingsMetadata
  vector_db_metadata : VectorDBMetadata
deriving DecidableEq

/-- How one iteration of the retry loop sees an attempt outcome
(worker.py lines 31-41): a raised call is an exception; a returned
response with an empty data list raises IndexError at
response data index 0 inside the try block, so it is handled as an
exception as well; otherwise the first embedding vector is falsy exactly
when it is the empty list. -/
inductive AttemptClass
  | exc
  | falsy
  | success (emb : List Int)
deriving DecidableEq

def classify : AttemptResult → AttemptClass
  | AttemptResult.raise => AttemptClass.exc
  | AttemptResult.ok [] => AttemptClass.exc
  | AttemptResult.ok (d0 :: _) =>
    if d0 = [] then AttemptClass.falsy else AttemptClass.success d0

def attemptFailed (a : AttemptResult) : Bool :=
  match classify a with
  | AttemptClass.success _ => false
  | _ => true

/-- Embedding of the retry loop of embed_openai_batch (worker.py lines
30-51), for i in range(5): one provider call per iteration.  An attempt
classified as an exception sleeps 2 to the power i (line 41) and, at
i = 4, evaluates BatchStatus.Failed (line 45) — the enum has no such
member, so the access raises AttributeError before update_job_status is
called, modelled as an exceptional exit.  A falsy attempt retries with
no sleep and at i = 4 hits the same AttributeError at line 50.  A truthy
first embedding vector breaks out of the loop, and line 53 reads it back
as the embeddings value.  The fuel argument is 5 - i; the fuel-0 case is
unreachable from the call in embed_openai_batch. -/
def embedLoop (env : WorkerEnv) (chunked : List (List Char)) :
    Nat → Nat → List Event × Except Unit (List Int)
  | _, 0 => ([], Except.error ())
  | i, fuel + 1 =>
    match classify (env.attempts i) with
    | AttemptClass.success emb => ([Event.embedCall chunked], Except.ok emb)
    | AttemptClass.exc =>
      if i = 4 then ([Event.embedCall chunked, Event.sleep (2 ^ i)], Except.error ())
      else
        let rest := embedLoop env chunked (i + 1) fuel
        (Event.embedCall chunked :: Event.sleep (2 ^ i) :: rest.1, rest.2)
    | AttemptClass.falsy =>
      if i = 4 then ([Event.embedCall chunked], Except.error ())
      else
        let rest := embedLoop env chunked (i + 1) fuel
        (Event.embedCall chunked :: rest.1, rest.2)

/-- Embedding of create_source_chunk_dict (worker.py lines 69-77):
enumerate(zip(embeddings, chunked_data)) — zip silently truncates to the
shorter sequence, and each record pairs one scalar component of the
embeddings argument with one chunk. -/
def create_source_chunk_dict (chunked_data : List (List Char)) (embeddings : List Int)
    (batch_id job_id : String) : List UpsertRecord :=
  (List.enum (List.zip embeddings chunked_data)).map
    (fun p => ⟨job_id ++ "_" ++ batch_id ++ "_" ++ toString p.1, p.2.1, p.2.2⟩)

/-- Embedding of write_embeddings_to_pinecone (worker.py lines 79-87):
init, then Index(name); when the index object is falsy the function
prints and returns None (falsy) without writing; otherwise it upserts
and returns the acknowledgement. -/
def write_embeddings_to_pinecone (env : WorkerEnv) (upsert_list : List UpsertRecord)
    (meta : VectorDBMetadata) : List Event × Except Unit Bool :=
  if env.indexTruthy meta.index_name then
    match env.upsert with
    | UpsertBehavior.raise => ([Event.upsertCall upsert_list], Except.error ())
    | UpsertBehavior.ack b => ([Event.upsertCall upsert_list], Except.ok b)
  else ([], Except.ok false)

/-- Embedding of write_embeddings_to_vector_db (worker.py lines 62-67):
on PINECONE build the upsert list and write it; any other vector db type
prints and returns None (falsy). -/
def write_embeddings_to_vector_db (env : WorkerEnv) (embeddings : List Int)
    (chunked_data : List (List Char)) (meta : VectorDBMetadata)
    (batch_id job_id : String) : List Event × Except Unit Bool :=
  if meta.vector_db_type = "PINECONE" then
    write_embeddings_to_pinecone env
      (create_source_chunk_dict chunked_data embeddings batch_id job_id) meta
  else ([], Except.ok false)

/-- Embedding of embed_openai_batch (worker.py lines 25-54): chunk the
source data (a ValueError from chunk_data propagates), run the retry
loop, and on a successful break write the first embedding vector of the
response to the vector store.  The Boolean value is the truthiness of
the Python return value (None is falsy). -/
def embed_openai_batch (env : WorkerEnv) (batch : WorkerBatch) :
    List Event × Except Unit Bool :=
  match chunk_data batch.source_data batch.embeddings_metadata.chunk_size
      batch.embeddings_metadata.chunk_overlap with
  | Except.error _ => ([], Except.error ())
  | Except.ok chunked_data =>
    match embedLoop env chunked_data 0 5 with
    | (evs, Except.error e) => (evs, Except.error e)
    | (evs, Except.ok embeddings) =>
      let w := write_embeddings_to_vector_db env embeddings chunked_data
        batch.vector_db_metadata batch.batch_id batch.job_id
      (evs ++ w.1, w.2)

/-- Embedding of process_batch (worker.py lines 12-23): for OPEN_AI run
embed_openai_batch and report COMPLETED when its value is truthy,
FAILED otherwise; an exception is caught and reported FAILED; any other
embeddings type is reported FAILED immediately.  The status report call
itself (update_job_status, lines 90-96) is assumed not to fail and is
recorded as a report event. -/
def process_batch (env : WorkerEnv) (batch : WorkerBatch) : List Event :=
  if batch.embeddings_metadata.embeddings_type = "OPEN_AI" then
    match embed_openai_batch env batch with
    | (evs, Except.ok v) =>
      evs ++ [Event.report batch.job_id batch.batch_id
        (if v then BatchStatus.COMPLETED else BatchStatus.FAILED)]
    | (evs, Except.error _) =>
      evs ++ [Event.report batch.job_id batch.batch_id BatchStatus.FAILED]
  else [Event.report batch.job_id batch.batch_id BatchStatus.FAILED]

def isEmbedCall : Event → Bool
  | Event.embedCall _ => true
  | _ => false

def isUpsertCall : Event → Bool
  | Event.upsertCall _ => true
  | _ => false

/-- The statuses reported during a trace, in order. -/
def reportedStatuses (tr : List Event) : List BatchStatus :=
  tr.filterMap (fun e => match e with
    | Event.report _ _ s => some s
    | _ => none)

/-- The upsert events of a trace. -/
def upsertCalls (tr : List Event) : List Event :=
  tr.filter (fun e => isUpsertCall e)

/-- Number of embedding-provider calls in a trace. -/
def numEmbedCalls (tr : List Event) : Nat :=
  (tr.filter (fun e => isEmbedCall e)).length

/-- Events after the n-th (0-indexed) embedding call of a trace. -/
def eventsAfterCall : Nat → List Event → List Event
  | _, [] => []
  | 0, e :: rest => if isEmbedCall e then rest else eventsAfterCall 0 rest
  | n + 1, e :: rest =>
    if isEmbedCall e then eventsAfterCall n rest else eventsAfterCall (n + 1) rest

/-- Events strictly between the n-th and the (n+1)-th embedding calls. -/
def betweenCalls (n : Nat) (tr : List Event) : List Event :=
  (eventsAfterCall n tr).takeWhile (fun e => !(isEmbedCall e))

/-- C6 (code evaluated at the failing input): with three chunks and a
first embedding vector of two components, create_source_chunk_dict pairs
chunk i with the i-th scalar component of that single vector and
silently drops the third chunk, instead of pairing chunk i with
embedding vector i and treating the length mismatch as fatal. -/
theorem create_source_chunk_dict_truncates :
    create_source_chunk_dict [['a', 'b'], ['c', 'd'], ['e', 'f']] [5, 7] ("b1") ("j1")
      = [⟨"j1_b1_0", 5, ['a', 'b']⟩, ⟨"j1_b1_1", 7, ['c', 'd']⟩] := by rfl

/-- C8: a batch whose embeddings_type is not a recognized provider type
is reported FAILED immediately: the whole trace is that single FAILED
report, so no provider call, no chunking and no vector write occurs. -/
theorem unsupported_embeddings_type_fails (env : WorkerEnv) (batch : WorkerBatch)
    (h : batch.embeddings_metadata.embeddings_type ≠ "OPEN_AI") :
    process_batch env batch
      = [Event.report batch.job_id batch.batch_id BatchStatus.FAILED] := by
  unfold process_batch
  rw [if_neg h]

/-- An environment in which every embedding attempt succeeds, the index
exists and the upsert is acknowledged. -/
def envAllOk : WorkerEnv :=
  ⟨fun _ => AttemptResult.ok [[1]], fun _ => true, UpsertBehavior.ack true⟩

/-- A batch with an unrecognized embeddings provider type. -/
def cohereBatch : WorkerBatch :=
  ⟨"j1", "b1", ['a', 'b'], ⟨"COHERE", "key", 2, 0⟩, ⟨"PINECONE", "idx", "env", "key"⟩⟩

theorem unsupported_embeddings_type_fails_witness :
    process_batch envAllOk cohereBatch
      = [Event.report ("j1") ("b1") BatchStatus.FAILED] :=
  unsupported_embeddings_type_fails envAllOk cohereBatch (by decide)

theorem numEmbedCalls_cons (e : Event) (tr : List Event) :
    numEmbedCalls (e :: tr) = (if isEmbedCall e then 1 else 0) + numEmbedCalls tr := by
  by_cases h : isEmbedCall e = true
  · simp [numEmbedCalls, List.filter_cons, h, Nat.add_comm]
  · simp [numEmbedCalls, List.filter_cons, h]

theorem numEmbedCalls_append (l r : List Event) :
    numEmbedCalls (l ++ r) = numEmbedCalls l + numEmbedCalls r := by
  simp [numEmbedCalls, List.filter_append]

theorem reportedStatuses_append (l r : List Event) :
    reportedStatuses (l ++ r) = reportedStatuses l ++ reportedStatuses r := by
  simp [reportedStatuses, List.filterMap_append]

theorem upsertCalls_append (l r : List Event) :
    upsertCalls (l ++ r) = upsertCalls l ++ upsertCalls r := by
  simp [upsertCalls, List.filter_append]

theorem embedLoop_zero (env : WorkerEnv) (chunked : List (List Char)) (i : Nat) :
    embedLoop env chunked i 0 = ([], Except.error ()) := rfl

theorem embedLoop_succ (env : WorkerEnv) (chunked : List (List Char)) (i fuel : Nat) :
    embedLoop env chunked i (fuel + 1) =
      match classify (env.attempts i) with
      | AttemptClass.success emb => ([Event.embedCall chunked], Except.ok emb)
      | AttemptClass.exc =>
        if i = 4 then ([Event.embedCall chunked, Event.sleep (2 ^ i)], Except.error ())
        else
          (Event.embedCall chunked :: Event.sleep (2 ^ i)
              :: (embedLoop env chunked (i + 1) fuel).1,
            (embedLoop env chunked (i + 1) fuel).2)
      | AttemptClass.falsy =>
        if i = 4 then ([Event.embedCall chunked], Except.error ())
        else
          (Event.embedCall chunked :: (embedLoop env chunked (i + 1) fuel).1,
            (embedLoop env chunked (i + 1) fuel).2) := rfl

theorem embedLoop_no_report (env : WorkerEnv) (chunked : List (List Char)) :
    ∀ fuel i, reportedStatuses (embedLoop env chunked i fuel).1 = [] := by
  intro fuel
  induction fuel with
  | zero => intro i; rfl
  | succ n ih =>
    intro i
    cases hc : classify (env.attempts i) with
    | success emb => simp [embedLoop_succ, hc, reportedStatuses]
    | exc =>
      by_cases h4 : i = 4
      · subst h4
        simp [embedLoop_succ, hc, reportedStatuses]
      · simp [embedLoop_succ, hc, h4, reportedStatuses, List.filterMap_cons]
        have := ih (i + 1)
        simpa [reportedStatuses] using this
    | falsy =>
      by_cases h4 : i = 4
      · subst h4
        simp [embedLoop_succ, hc, reportedStatuses]
      · simp [embedLoop_succ, hc, h4, reportedStatuses, List.filterMap_cons]
        have := ih (i + 1)
        simpa [reportedStatuses] using this

theorem embedLoop_no_upsert (env : WorkerEnv) (chunked : List (List Char)) :
    ∀ fuel i, upsertCalls (embedLoop env chunked i fuel).1 = [] := by
  intro fuel
  induction fuel with
  | zero => intro i; rfl
  | succ n ih =>
    intro i
    cases hc : classify (env.attempts i) with
    | success emb => simp [embedLoop_succ, hc, upsertCalls, isUpsertCall]
    | exc =>
      by_cases h4 : i = 4
      · subst h4
        simp [embedLoop_succ, hc, upsertCalls, isUpsertCall]
      · simp [embedLoop_succ, hc, h4, upsertCalls, isUpsertCall, List.filter_cons]
        have := ih (i + 1)
        simpa [upsertCalls] using this
    | falsy =>
      by_cases h4 : i = 4
      · subst h4
        simp [embedLoop_succ, hc, upsertCalls, isUpsertCall]
      · simp [embedLoop_succ, hc, h4, upsertCalls, isUpsertCall, List.filter_cons]
        have := ih (i + 1)
        simpa [upsertCalls] using this

theorem embedLoop_calls_le (env : WorkerEnv) (chunked : List (List Char)) :
    ∀ fuel i, numEmbedCalls (embedLoop env chunked i fuel).1 ≤ fuel := by
  intro fuel
  induction fuel with
  | zero => intro i; simp [embedLoop_zero, numEmbedCalls]
  | succ n ih =>
    intro i
    cases hc : classify (env.attempts i) with
    | success emb =>
      simp [embedLoop_succ, hc, numEmbedCalls_cons, numEmbedCalls, isEmbedCall]
    | exc =>
      by_cases h4 : i = 4
      · subst h4
        simp [embedLoop_succ, hc, numEmbedCalls_cons, numEmbedCalls, isEmbedCall]
      · simp only [embedLoop_succ, hc, h4, if_false, ite_false]
        rw [numEmbedCalls_cons, numEmbedCalls_cons]
        have := ih (i + 1)
        simp [isEmbedCall]
        omega
    | falsy =>
      by_cases h4 : i = 4
      · subst h4
        simp [embedLoop_succ, hc, numEmbedCalls_cons, numEmbedCalls, isEmbedCall]
      · simp only [embedLoop_succ, hc, h4, if_false, ite_false]
        rw [numEmbedCalls_cons]
        have := ih (i + 1)
        simp [isEmbedCall]
        omega

theorem embedLoop_all_failed (env : WorkerEnv) (chunked : List (List Char)) :
    ∀ fuel i, i + fuel = 5 → (∀ j, j < 5 → attemptFailed (env.attempts j) = true) →
      (embedLoop env chunked i fuel).2 = Except.error () := by
  intro fuel
  induction fuel with
  | zero => intro i _ _; rfl
  | succ n ih =>
    intro i hinv hall
    have hi5 : i < 5 := by omega
    cases hc : classify (env.attempts i) with
    | success emb =>
      exfalso
      have hf := hall i hi5
      unfold attemptFailed at hf
      rw [hc] at hf
      simp at hf
    | exc =>
      by_cases h4 : i = 4
      · subst h4
        simp [embedLoop_succ, hc]
      · simp only [embedLoop_succ, hc, h4, if_false, ite_false]
        exact ih (i + 1) (by omega) hall
    | falsy =>
      by_cases h4 : i = 4
      · subst h4
        simp [embedLoop_succ, hc]
      · simp only [embedLoop_succ, hc, h4, if_false, ite_false]
        exact ih (i + 1) (by omega) hall

theorem embedLoop_head (env : WorkerEnv) (chunked : List (List Char)) (i fuel : Nat)
    (h : 0 < fuel) :
    ∃ tl, (embedLoop env chunked i fuel).1 = Event.embedCall chunked :: tl := by
  cases fuel with
  | zero => omega
  | succ n =>
    cases hc : classify (env.attempts i) with
    | success emb => exact ⟨[], by simp [embedLoop_succ, hc]⟩
    | exc =>
      by_cases h4 : i = 4
      · subst h4
        exact ⟨[Event.sleep (2 ^ 4)], by simp [embedLoop_succ, hc]⟩
      · exact ⟨Event.sleep (2 ^ i) :: (embedLoop env chunked (i + 1) n).1,
          by simp [embedLoop_succ, hc, h4]⟩
    | falsy =>
      by_cases h4 : i = 4
      · subst h4
        exact ⟨[], by simp [embedLoop_succ, hc]⟩
      · exact ⟨(embedLoop env chunked (i + 1) n).1, by simp [embedLoop_succ, hc, h4]⟩

theorem eventsAfterCall_zero_call (input : List (List Char)) (tr : List Event) :
    eventsAfterCall 0 (Event.embedCall input :: tr) = tr := by
  simp [eventsAfterCall, isEmbedCall]

theorem eventsAfterCall_sleep (m k : Nat) (tr : List Event) :
    eventsAfterCall m (Event.sleep k :: tr) = eventsAfterCall m tr := by
  cases m <;> simp [eventsAfterCall, isEmbedCall]

theorem betweenCalls_zero_call (input : List (List Char)) (tr : List Event) :
    betweenCalls 0 (Event.embedCall input :: tr)
      = tr.takeWhile (fun e => !(isEmbedCall e)) := by
  simp [betweenCalls, eventsAfterCall_zero_call]

theorem betweenCalls_succ_call (m : Nat) (input : List (List Char)) (tr : List Event) :
    betweenCalls (m + 1) (Event.embedCall input :: tr) = betweenCalls m tr := by
  simp [betweenCalls, eventsAfterCall, isEmbedCall]

theorem betweenCalls_skip_sleep (m k : Nat) (tr : List Event) :
    betweenCalls m (Event.sleep k :: tr) = betweenCalls m tr := by
  simp [betweenCalls, eventsAfterCall_sleep]

theorem embedLoop_betweenCalls (env : WorkerEnv) (chunked : List (List Char)) :
    ∀ fuel i j rest, i + fuel = 5 →
      attemptFailed (env.attempts (i + j)) = true →
      j + 1 < numEmbedCalls (embedLoop env chunked i fuel).1 →
      betweenCalls j ((embedLoop env chunked i fuel).1 ++ rest) =
        (if classify (env.attempts (i + j)) = AttemptClass.exc
          then [Event.sleep (2 ^ (i + j))] else []) := by
  intro fuel
  induction fuel with
  | zero =>
    intro i j rest _ _ hcnt
    rw [embedLoop_zero] at hcnt
    simp [numEmbedCalls] at hcnt
  | succ n ih =>
    intro i j rest hinv hfail hcnt
    cases hc : classify (env.attempts i) with
    | success emb =>
      simp only [embedLoop_succ, hc] at hcnt
      simp [numEmbedCalls, List.filter_cons, isEmbedCall] at hcnt
    | exc =>
      by_cases h4 : i = 4
      · subst h4
        simp only [embedLoop_succ, hc] at hcnt
        simp [numEmbedCalls, List.filter_cons, isEmbedCall] at hcnt
      · simp only [embedLoop_succ, hc, h4, if_false, ite_false] at hcnt ⊢
        rw [numEmbedCalls_cons, numEmbedCalls_cons] at hcnt
        simp only [isEmbedCall] at hcnt
        cases j with
        | zero =>
          have hpos : 0 < numEmbedCalls (embedLoop env chunked (i + 1) n).1 := by
            simp at hcnt
            omega
          have hn : 0 < n := lt_of_lt_of_le hpos (embedLoop_calls_le env chunked n (i + 1))
          obtain ⟨tl, htl⟩ := embedLoop_head env chunked (i + 1) n hn
          simp only [List.cons_append]
          rw [betweenCalls_zero_call, htl, List.cons_append]
          simp [List.takeWhile_cons, isEmbedCall, hc]
        | succ m =>
          have harith : i + (m + 1) = (i + 1) + m := by omega
          rw [harith] at hfail ⊢
          simp only [List.cons_append]
          rw [betweenCalls_succ_call, betweenCalls_skip_sleep]
          refine ih (i + 1) m rest (by omega) hfail ?_
          simp at hcnt
          omega
    | falsy =>
      by_cases h4 : i = 4
      · subst h4
        simp only [embedLoop_succ, hc] at hcnt
        simp [numEmbedCalls, List.filter_cons, isEmbedCall] at hcnt
      · simp only [embedLoop_succ, hc, h4, if_false, ite_false] at hcnt ⊢
        rw [numEmbedCalls_cons] at hcnt
        simp only [isEmbedCall] at hcnt
        cases j with
        | zero =>
          have hpos : 0 < numEmbedCalls (embedLoop env chunked (i + 1) n).1 := by
            simp at hcnt
            omega
          have hn : 0 < n := lt_of_lt_of_le hpos (embedLoop_calls_le env chunked n (i + 1))
          obtain ⟨tl, htl⟩ := embedLoop_head env chunked (i + 1) n hn
          simp only [List.cons_append]
          rw [betweenCalls_zero_call, htl, List.cons_append]
          simp [List.takeWhile_cons, isEmbedCall, hc]
        | succ m =>
          have harith : i + (m + 1) = (i + 1) + m := by omega
          rw [harith] at hfail ⊢
          simp only [List.cons_append]
          rw [betweenCalls_succ_call]
          refine ih (i + 1) m rest (by omega) hfail ?_
          simp at hcnt
          omega

theorem numEmbedCalls_report (jid bid : String) (s : BatchStatus) :
    numEmbedCalls [Event.report jid bid s] = 0 := by
  simp [numEmbedCalls, List.filter_cons, isEmbedCall]

theorem reportedStatuses_report (jid bid : String) (s : BatchStatus) :
    reportedStatuses [Event.report jid bid s] = [s] := by
  simp [reportedStatuses, List.filterMap_cons]

theorem upsertCalls_report (jid bid : String) (s : BatchStatus) :
    upsertCalls [Event.report jid bid s] = [] := by
  simp [upsertCalls, List.filter_cons, isUpsertCall]

theorem write_vector_db_no_embed_events (env : WorkerEnv) (embeddings : List Int)
    (chunked_data : List (List Char)) (meta : VectorDBMetadata) (batch_id job_id : String) :
    numEmbedCalls (write_embeddings_to_vector_db env embeddings chunked_data meta
        batch_id job_id).1 = 0 ∧
    reportedStatuses (write_embeddings_to_vector_db env embeddings chunked_data meta
        batch_id job_id).1 = [] := by
  unfold write_embeddings_to_vector_db write_embeddings_to_pinecone
  split
  · split
    · cases env.upsert <;>
        simp [numEmbedCalls, reportedStatuses, List.filter_cons, List.filterMap_cons,
          isEmbedCall]
    · simp [numEmbedCalls, reportedStatuses]
  · simp [numEmbedCalls, reportedStatuses]

theorem write_vector_db_bad (env : WorkerEnv) (embeddings : List Int)
    (chunked_data : List (List Char)) (meta : VectorDBMetadata) (batch_id job_id : String)
    (h : meta.vector_db_type ≠ "PINECONE" ∨ env.indexTruthy meta.index_name = false) :
    write_embeddings_to_vector_db env embeddings chunked_data meta batch_id job_id
      = ([], Except.ok false) := by
  unfold write_embeddings_to_vector_db write_embeddings_to_pinecone
  rcases h with h | h
  · rw [if_neg h]
  · by_cases hp : meta.vector_db_type = "PINECONE"
    · rw [if_pos hp, if_neg (by simp [h])]
    · rw [if_neg hp]

theorem write_vector_db_good (env : WorkerEnv) (embeddings : List Int)
    (chunked_data : List (List Char)) (meta : VectorDBMetadata) (batch_id job_id : String)
    (hp : meta.vector_db_type = "PINECONE") (hidx : env.indexTruthy meta.index_name = true)
    (b : Bool) (hu : env.upsert = UpsertBehavior.ack b) :
    write_embeddings_to_vector_db env embeddings chunked_data meta batch_id job_id
      = ([Event.upsertCall (create_source_chunk_dict chunked_data embeddings batch_id
          job_id)], Except.ok b) := by
  unfold write_embeddings_to_vector_db write_embeddings_to_pinecone
  rw [if_pos hp, if_pos hidx, hu]

theorem write_vector_db_raise (env : WorkerEnv) (embeddings : List Int)
    (chunked_data : List (List Char)) (meta : VectorDBMetadata) (batch_id job_id : String)
    (hp : meta.vector_db_type = "PINECONE") (hidx : env.indexTruthy meta.index_name = true)
    (hu : env.upsert = UpsertBehavior.raise) :
    write_embeddings_to_vector_db env embeddings chunked_data meta batch_id job_id
      = ([Event.upsertCall (create_source_chunk_dict chunked_data embeddings batch_id
          job_id)], Except.error ()) := by
  unfold write_embeddings_to_vector_db write_embeddings_to_pinecone
  rw [if_pos hp, if_pos hidx, hu]

theorem embed_no_report (env : WorkerEnv) (batch : WorkerBatch) :
    reportedStatuses (embed_openai_batch env batch).1 = [] := by
  unfold embed_openai_batch
  cases hcd : chunk_data batch.source_data batch.embeddings_metadata.chunk_size
      batch.embeddings_metadata.chunk_overlap with
  | error e => rfl
  | ok chunked =>
    rcases hl : embedLoop env chunked 0 5 with ⟨evs, r⟩
    have hnr : reportedStatuses evs = [] := by
      have hx := embedLoop_no_report env chunked 5 0
      rw [hl] at hx
      exact hx
    cases r with
    | error e =>
      simp only [hl]
      exact hnr
    | ok embeddings =>
      simp only [hl]
      rw [reportedStatuses_append, hnr]
      simp [(write_vector_db_no_embed_events env embeddings chunked
        batch.vector_db_metadata batch.batch_id batch.job_id).2]

theorem embed_all_failed (env : WorkerEnv) (batch : WorkerBatch)
    (hfail : ∀ j, j < 5 → attemptFailed (env.attempts j) = true) :
    (embed_openai_batch env batch).2 = Except.error () ∧
    upsertCalls (embed_openai_batch env batch).1 = [] := by
  unfold embed_openai_batch
  cases hcd : chunk_data batch.source_data batch.embeddings_metadata.chunk_size
      batch.embeddings_metadata.chunk_overlap with
  | error e => exact ⟨rfl, rfl⟩
  | ok chunked =>
    rcases hl : embedLoop env chunked 0 5 with ⟨evs, r⟩
    have h2 := embedLoop_all_failed env chunked 5 0 (by omega) hfail
    rw [hl] at h2
    have hnu : upsertCalls evs = [] := by
      have hx := embedLoop_no_upsert env chunked 5 0
      rw [hl] at hx
      exact hx
    cases r with
    | ok v => exact absurd h2 (by simp)
    | error e =>
      cases e
      simp only [hl]
      exact ⟨trivial, hnu⟩

/-- The status process_batch reports for one embed_openai_batch result:
COMPLETED for a truthy return value, FAILED for a falsy return value or
an exception. -/
def reportOf (r : Except Unit Bool) : BatchStatus :=
  match r with
  | Except.ok v => if v then BatchStatus.COMPLETED else BatchStatus.FAILED
  | Except.error _ => BatchStatus.FAILED

theorem process_batch_trace (env : WorkerEnv) (batch : WorkerBatch)
    (htype : batch.embeddings_metadata.embeddings_type = "OPEN_AI") :
    process_batch env batch = (embed_openai_batch env batch).1
      ++ [Event.report batch.job_id batch.batch_id
          (reportOf (embed_openai_batch env batch).2)] := by
  unfold process_batch
  rw [if_pos htype]
  rcases he : embed_openai_batch env batch with ⟨evs, r⟩
  cases r with
  | ok v => rfl
  | error e => rfl

/-- C3: for an OPEN_AI batch all five embedding attempts of which fail,
the run reports the batch FAILED — a single FAILED report — and performs
no vector-store upsert call. -/
theorem exhausted_retries_fail_no_upsert (env : WorkerEnv) (batch : WorkerBatch)
    (htype : batch.embeddings_metadata.embeddings_type = "OPEN_AI")
    (hfail : ∀ j, j < 5 → attemptFailed (env.attempts j) = true) :
    reportedStatuses (process_batch env batch) = [BatchStatus.FAILED] ∧
    upsertCalls (process_batch env batch) = [] := by
  obtain ⟨h2, h3⟩ := embed_all_failed env batch hfail
  have hnr := embed_no_report env batch
  rw [process_batch_trace env batch htype]
  constructor
  · rw [reportedStatuses_append, hnr, h2]
    rfl
  · rw [upsertCalls_append, h3]
    rfl

/-- An environment in which every embedding attempt raises. -/
def envAllRaise : WorkerEnv :=
  ⟨fun _ => AttemptResult.raise, fun _ => true, UpsertBehavior.ack true⟩

/-- A batch with provider type OPEN_AI and vector store type PINECONE. -/
def openaiBatch : WorkerBatch :=
  ⟨"j2", "b2", ['a', 'b', 'c', 'd'], ⟨"OPEN_AI", "key", 2, 0⟩,
   ⟨"PINECONE", "idx", "env", "key"⟩⟩

theorem exhausted_retries_fail_no_upsert_witness :
    reportedStatuses (process_batch envAllRaise openaiBatch) = [BatchStatus.FAILED] ∧
    upsertCalls (process_batch envAllRaise openaiBatch) = [] :=
  exhausted_retries_fail_no_upsert envAllRaise openaiBatch (by decide) (by decide)

/-- C9: for an OPEN_AI batch, with the status-report transport assumed
not to fail, one process_batch invocation performs exactly one status
report, and the reported status is COMPLETED or FAILED. -/
theorem exactly_one_status_report (env : WorkerEnv) (batch : WorkerBatch)
    (htype : batch.embeddings_metadata.embeddings_type = "OPEN_AI") :
    reportedStatuses (process_batch env batch) = [BatchStatus.COMPLETED] ∨
    reportedStatuses (process_batch env batch) = [BatchStatus.FAILED] := by
  have hnr := embed_no_report env batch
  rw [process_batch_trace env batch htype, reportedStatuses_append, hnr]
  cases hr : (embed_openai_batch env batch).2 with
  | ok v =>
    cases v with
    | true => left; rfl
    | false => right; rfl
  | error e => right; rfl

theorem exactly_one_status_report_witness :
    reportedStatuses (process_batch envAllOk openaiBatch) = [BatchStatus.COMPLETED] ∨
    reportedStatuses (process_batch envAllOk openaiBatch) = [BatchStatus.FAILED] :=
  exactly_one_status_report envAllOk openaiBatch (by decide)

theorem embed_bad_vector_db (env : WorkerEnv) (batch : WorkerBatch)
    (h : batch.vector_db_metadata.vector_db_type ≠ "PINECONE" ∨
      env.indexTruthy batch.vector_db_metadata.index_name = false) :
    reportOf (embed_openai_batch env batch).2 = BatchStatus.FAILED ∧
    upsertCalls (embed_openai_batch env batch).1 = [] := by
  unfold embed_openai_batch
  cases hcd : chunk_data batch.source_data batch.embeddings_metadata.chunk_size
      batch.embeddings_metadata.chunk_overlap with
  | error e => exact ⟨rfl, rfl⟩
  | ok chunked =>
    rcases hl : embedLoop env chunked 0 5 with ⟨evs, r⟩
    have hnu : upsertCalls evs = [] := by
      have hx := embedLoop_no_upsert env chunked 5 0
      rw [hl] at hx
      exact hx
    cases r with
    | error e =>
      cases e
      simp only [hl]
      exact ⟨rfl, hnu⟩
    | ok embeddings =>
      simp only [hl]
      rw [write_vector_db_bad env embeddings chunked batch.vector_db_metadata
        batch.batch_id batch.job_id h]
      constructor
      · rfl
      · rw [upsertCalls_append, hnu]
        rfl

/-- C7: a batch whose vector_db_type is not a recognized backend, or
whose target index object is falsy (the index does not exist), is
reported FAILED and no vector-store write is performed, whatever the
embedding stage does. -/
theorem bad_vector_db_fails_no_upsert (env : WorkerEnv) (batch : WorkerBatch)
    (h : batch.vector_db_metadata.vector_db_type ≠ "PINECONE" ∨
      env.indexTruthy batch.vector_db_metadata.index_name = false) :
    reportedStatuses (process_batch env batch) = [BatchStatus.FAILED] ∧
    upsertCalls (process_batch env batch) = [] := by
  by_cases htype : batch.embeddings_metadata.embeddings_type = "OPEN_AI"
  · obtain ⟨hro, hnu⟩ := embed_bad_vector_db env batch h
    have hnr := embed_no_report env batch
    rw [process_batch_trace env batch htype]
    constructor
    · rw [reportedStatuses_append, hnr, hro]
      rfl
    · rw [upsertCalls_append, hnu]
      rfl
  · unfold process_batch
    rw [if_neg htype]
    exact ⟨rfl, rfl⟩

/-- An environment whose index lookup is falsy. -/
def envNoIndex : WorkerEnv :=
  ⟨fun _ => AttemptResult.ok [[1]], fun _ => false, UpsertBehavior.ack true⟩

theorem bad_vector_db_fails_no_upsert_witness :
    reportedStatuses (process_batch envNoIndex openaiBatch) = [BatchStatus.FAILED] ∧
    upsertCalls (process_batch envNoIndex openaiBatch) = [] :=
  bad_vector_db_fails_no_upsert envNoIndex openaiBatch (Or.inr rfl)

theorem reportedStatuses_nil : reportedStatuses [] = [] := rfl

theorem reportedStatuses_upsert (l : List UpsertRecord) :
    reportedStatuses [Event.upsertCall l] = [] := by
  simp [reportedStatuses, List.filterMap_cons]

theorem upsertCalls_upsert (l : List UpsertRecord) :
    upsertCalls [Event.upsertCall l] = [Event.upsertCall l] := by
  simp [upsertCalls, List.filter_cons, isUpsertCall]

/-- C10: process_batch reports COMPLETED exactly when the vector-store
upsert was invoked and returned a truthy acknowledgement; in every other
outcome the single report is FAILED. -/
theorem completed_only_with_truthy_upsert (env : WorkerEnv) (batch : WorkerBatch) :
    (reportedStatuses (process_batch env batch) = [BatchStatus.COMPLETED] ∧
      upsertCalls (process_batch env batch) ≠ [] ∧
      env.upsert = UpsertBehavior.ack true) ∨
    reportedStatuses (process_batch env batch) = [BatchStatus.FAILED] := by
  by_cases htype : batch.embeddings_metadata.embeddings_type = "OPEN_AI"
  case neg =>
    right
    unfold process_batch
    rw [if_neg htype]
    rfl
  case pos =>
  rw [process_batch_trace env batch htype]
  unfold embed_openai_batch
  cases hcd : chunk_data batch.source_data batch.embeddings_metadata.chunk_size
      batch.embeddings_metadata.chunk_overlap with
  | error e =>
    right
    rfl
  | ok chunked =>
    rcases hl : embedLoop env chunked 0 5 with ⟨evs, r⟩
    have hnrl : reportedStatuses evs = [] := by
      have hx := embedLoop_no_report env chunked 5 0
      rw [hl] at hx
      exact hx
    have hnul : upsertCalls evs = [] := by
      have hx := embedLoop_no_upsert env chunked 5 0
      rw [hl] at hx
      exact hx
    cases r with
    | error e =>
      cases e
      right
      simp only [hl]
      rw [reportedStatuses_append, hnrl]
      rfl
    | ok embeddings =>
      simp only [hl]
      by_cases hdb : batch.vector_db_metadata.vector_db_type = "PINECONE"
      · by_cases hidx : env.indexTruthy batch.vector_db_metadata.index_name = true
        · cases hu : env.upsert with
          | raise =>
            right
            rw [write_vector_db_raise env embeddings chunked batch.vector_db_metadata
              batch.batch_id batch.job_id hdb hidx hu]
            rw [reportedStatuses_append, reportedStatuses_append, hnrl,
              reportedStatuses_upsert, reportedStatuses_report]
            rfl
          | ack b =>
            cases b with
            | true =>
              left
              rw [write_vector_db_good env embeddings chunked batch.vector_db_metadata
                batch.batch_id batch.job_id hdb hidx true (by rw [hu])]
              refine ⟨?_, ?_, rfl⟩
              · rw [reportedStatuses_append, reportedStatuses_append, hnrl,
                  reportedStatuses_upsert, reportedStatuses_report]
                rfl
              · rw [upsertCalls_append, upsertCalls_append, hnul,
                  upsertCalls_upsert, upsertCalls_report]
                simp
            | false =>
              right
              rw [write_vector_db_good env embeddings chunked batch.vector_db_metadata
                batch.batch_id batch.job_id hdb hidx false (by rw [hu])]
              rw [reportedStatuses_append, reportedStatuses_append, hnrl,
                reportedStatuses_upsert, reportedStatuses_report]
              rfl
        · right
          rw [write_vector_db_bad env embeddings chunked batch.vector_db_metadata
            batch.batch_id batch.job_id (Or.inr (by simpa using hidx))]
          rw [reportedStatuses_append, reportedStatuses_append, hnrl,
            reportedStatuses_nil, reportedStatuses_report]
          rfl
      · right
        rw [write_vector_db_bad env embeddings chunked batch.vector_db_metadata
          batch.batch_id batch.job_id (Or.inl hdb)]
        rw [reportedStatuses_append, reportedStatuses_append, hnrl,
          reportedStatuses_nil, reportedStatuses_report]
        rfl

theorem process_calls_le (env : WorkerEnv) (batch : WorkerBatch) :
    numEmbedCalls (process_batch env batch) ≤ 5 := by
  by_cases htype : batch.embeddings_metadata.embeddings_type = "OPEN_AI"
  · rw [process_batch_trace env batch htype, numEmbedCalls_append, numEmbedCalls_report]
    unfold embed_openai_batch
    cases hcd : chunk_data batch.source_data batch.embeddings_metadata.chunk_size
        batch.embeddings_metadata.chunk_overlap with
    | error e => simp [numEmbedCalls]
    | ok chunked =>
      rcases hl : embedLoop env chunked 0 5 with ⟨evs, r⟩
      have hle : numEmbedCalls evs ≤ 5 := by
        have hx := embedLoop_calls_le env chunked 5 0
        rw [hl] at hx
        exact hx
      cases r with
      | error e =>
        simp only [hl]
        omega
      | ok embeddings =>
        simp only [hl]
        rw [numEmbedCalls_append]
        have hw := (write_vector_db_no_embed_events env embeddings chunked
          batch.vector_db_metadata batch.batch_id batch.job_id).1
        omega
  · unfold process_batch
    rw [if_neg htype, numEmbedCalls_report]
    omega

/-- The content of claim C2 for one environment and batch: the worker
attempts the embedding call at most five times, and whenever attempt i
failed — it raised, or its response lacked a usable embedding vector —
and a retry follows, a sleep of 2 to the power i occurs between the two
calls. -/
def claimC2 (env : WorkerEnv) (batch : WorkerBatch) : Prop :=
  numEmbedCalls (process_batch env batch) ≤ 5 ∧
  ∀ i, i < 4 → attemptFailed (env.attempts i) = true →
    i + 1 < numEmbedCalls (process_batch env batch) →
    Event.sleep (2 ^ i) ∈ betweenCalls i (process_batch env batch)

/-- An environment whose first attempt returns a response with an empty
(falsy) embedding vector and whose second attempt succeeds. -/
def envFalsyThenOk : WorkerEnv :=
  ⟨fun i => if i = 0 then AttemptResult.ok [[]] else AttemptResult.ok [[1]],
   fun _ => true, UpsertBehavior.ack true⟩

/-- C2 counterexample: when the first attempt fails because the response
lacks a usable embedding vector, the code retries immediately — the
backoff sleep happens only in the except branch, worker.py line 41 — so
no sleep of one time unit occurs between attempts 0 and 1, and the claim
as stated is false. -/
theorem claimC2_refuted : claimC2 envFalsyThenOk openaiBatch = False := by
  apply eq_false
  intro h
  exact absurd (h.2 0 (by decide) (by decide) (by decide)) (by decide)

/-- C2 as amended: at most five attempts; between a failed attempt i and
its retry the trace holds exactly one sleep of 2 to the power i when the
attempt raised an error, and no events at all — an immediate retry —
when the attempt merely returned a response without a usable embedding
vector. -/
def claimC2Amended (env : WorkerEnv) (batch : WorkerBatch) : Prop :=
  numEmbedCalls (process_batch env batch) ≤ 5 ∧
  ∀ i, i < 4 → attemptFailed (env.attempts i) = true →
    i + 1 < numEmbedCalls (process_batch env batch) →
    betweenCalls i (process_batch env batch) =
      (if classify (env.attempts i) = AttemptClass.exc
        then [Event.sleep (2 ^ i)] else [])

/-- C2 (amended): the retry loop makes at most five provider calls,
sleeps exactly 2 to the power i before the retry that follows a raising
attempt i, and retries immediately — with no sleep — after an attempt
whose response lacked a usable embedding vector. -/
theorem retry_backoff_amended (env : WorkerEnv) (batch : WorkerBatch) :
    claimC2Amended env batch := by
  constructor
  · exact process_calls_le env batch
  · intro i hi4 hfail hcnt
    by_cases htype : batch.embeddings_metadata.embeddings_type = "OPEN_AI"
    case neg =>
      exfalso
      unfold process_batch at hcnt
      rw [if_neg htype, numEmbedCalls_report] at hcnt
      omega
    case pos =>
    rw [process_batch_trace env batch htype] at hcnt ⊢
    rw [numEmbedCalls_append, numEmbedCalls_report] at hcnt
    unfold embed_openai_batch at hcnt ⊢
    cases hcd : chunk_data batch.source_data batch.embeddings_metadata.chunk_size
        batch.embeddings_metadata.chunk_overlap with
    | error e =>
      exfalso
      rw [hcd] at hcnt
      simp [numEmbedCalls] at hcnt
    | ok chunked =>
      rw [hcd] at hcnt
      rcases hl : embedLoop env chunked 0 5 with ⟨evs, r⟩
      cases r with
      | error e =>
        cases e
        simp only [hl] at hcnt ⊢
        have hcnt2 : i + 1 < numEmbedCalls evs := by omega
        have hbc := embedLoop_betweenCalls env chunked 5 0 i
          [Event.report batch.job_id batch.batch_id (reportOf (Except.error ()))]
          (by omega) (by simpa using hfail) (by rw [hl]; exact hcnt2)
        rw [hl] at hbc
        simpa using hbc
      | ok embeddings =>
        simp only [hl] at hcnt ⊢
        rw [numEmbedCalls_append] at hcnt
        have hw := (write_vector_db_no_embed_events env embeddings chunked
          batch.vector_db_metadata batch.batch_id batch.job_id).1
        have hcnt2 : i + 1 < numEmbedCalls evs := by omega
        rw [List.append_assoc]
        have hbc := embedLoop_betweenCalls env chunked 5 0 i
          ((write_embeddings_to_vector_db env embeddings chunked
              batch.vector_db_metadata batch.batch_id batch.job_id).1
            ++ [Event.report batch.job_id batch.batch_id
                (reportOf (write_embeddings_to_vector_db env embeddings chunked
                  batch.vector_db_metadata batch.batch_id batch.job_id).2)])
          (by omega) (by simpa using hfail) (by rw [hl]; exact hcnt2)
        rw [hl] at hbc
        simpa using hbc
